import Mathlib

/-
Verification of the jank build/link orchestration layer.

Part 1 embeds `compiler+runtime/bin/ar-merge.ps1`, the object-archive cache
script: its `clean`, `merge`, `merge-phase-2` subcommands and the default
(record + pass-through) branch.

Part 2 embeds the toolchain-resolver / JIT-flag-filter / PCH / link-composer
code excerpted in the repository's AOT linking fix document: the
`is_accessible_path` classification, the `JANK_JIT_FLAGS` filtering loop, the
PCH load flags, and the AOT link argument composition.

Strings are modelled by Lean `String`, but every operation is defined
structurally over `String.data` (the underlying character list) so that all
definitions are executable and concrete instances evaluate by `decide`.
-/

/-- Concatenation of two strings, defined structurally over the character
lists. Models string interpolation / `+` / `util::format` concatenation in
the sources. -/
def str_cat (a b : String) : String := ⟨a.data ++ b.data⟩

/-- Bool-valued test that `s` begins with `p`. Models C++
`std::string::starts_with` and the anchored part of PowerShell regexes. -/
def starts_with_str (s p : String) : Bool := p.data.isPrefixOf s.data

/-- Drop the first `n` characters. Models `std::string::substr(n)` and
PowerShell `$Matches[1]` of the regex `^@(.+)$` (which drops the `@`). -/
def str_drop (s : String) (n : Nat) : String := ⟨s.data.drop n⟩

/-- Character count of a string. -/
def str_len (s : String) : Nat := s.data.length

/-- Remove leading and trailing whitespace. Models .NET `String.Trim()` used
on each response-file line. -/
def trim_chars (l : List Char) : List Char :=
  ((l.dropWhile Char.isWhitespace).reverse.dropWhile Char.isWhitespace).reverse

/-- String version of `trim_chars`. -/
def trim_str (s : String) : String := ⟨trim_chars s.data⟩

/-- Lexicographic (ordinal, by character code) comparison of character lists.
Models the stable name ordering in which `Get-ChildItem` enumerates the cache
directory's files. -/
def chars_lt : List Char → List Char → Bool
  | [], [] => false
  | [], _ :: _ => true
  | _ :: _, [] => false
  | a :: as, b :: bs => if a < b then true else if b < a then false else chars_lt as bs

/-
-------------------------------------------------------------------------
Part 1: ar-merge.ps1 (object archive cache).
-------------------------------------------------------------------------
The cache directory is modelled as an association list from list-file name
to the list of lines stored in that file; the script guarantees at most one
file per name, and `record` below preserves that.  The response-file
filesystem visible at record time is modelled as a lookup
`fs : String -> Option (List String)` from response-file name to its lines
(`none` models `Test-Path` failing).
-/

/-- The cache directory's contents: one entry per list file, keyed by file
name, holding the file's lines. -/
abbrev Cache := List (String × List String)

/-- `$ar = "@CMAKE_AR@"`: the underlying archiver binary. -/
def ar : String := "@CMAKE_AR@"

/-- `$cmake_binary_dir = "@CMAKE_CURRENT_BINARY_DIR@"`. -/
def cmake_binary_dir : String := "@CMAKE_CURRENT_BINARY_DIR@"

/-- `"$cmake_binary_dir/libjank-standalone-phase-1.a"`, the `merge` output. -/
def merge_output_path : String := str_cat cmake_binary_dir "/libjank-standalone-phase-1.a"

/-- `"$cmake_binary_dir/libjank-standalone.a"`, the `merge-phase-2` output. -/
def standalone_output_path : String := str_cat cmake_binary_dir "/libjank-standalone.a"

/-- `"$cmake_binary_dir/core-libs/clojure/core.o"`, the compiled
standard-library core unit appended by `merge-phase-2`. -/
def core_object_path : String := str_cat cmake_binary_dir "/core-libs/clojure/core.o"

/-- `$base = $output -replace '[/\\]', '_'`: every forward or backward slash
of the target output path becomes an underscore. -/
def sanitize_output (output : String) : String :=
  ⟨output.data.map (fun c => if c = '/' ∨ c = '\\' then '_' else c)⟩

/-- `$list_file = "$cache_dir/$base.list"`: the cache file name for a target
output path (the constant directory part is dropped from the key). -/
def list_file_name (output : String) : String :=
  str_cat (sanitize_output output) ".list"

/-- True when an argument matches the response-file regex `^@(.+)$`:
it starts with `@` and has at least one further character. -/
def is_ref (arg : String) : Bool :=
  starts_with_str arg "@" && decide (1 < str_len arg)

/-- Expansion of one archiver argument, from the `foreach ($arg in
$object_args)` loop of the default branch: a response-file reference whose
file exists is replaced by the file's trimmed nonempty lines; a reference
whose file is missing, and any other argument, is kept as is. -/
def expand_one (fs : String → Option (List String)) (arg : String) : List String :=
  if is_ref arg then
    match fs (str_drop arg 1) with
    | some rsp_lines => (rsp_lines.map trim_str).filter (fun l => l ≠ "")
    | none => [arg]
  else [arg]

/-- `$expanded_args`: the whole argument list after response-file
expansion. -/
def expand_args (fs : String → Option (List String)) (object_args : List String) : List String :=
  object_args.flatMap (fun arg => expand_one fs arg)

/-- The cache effect of the default branch: delete any existing list file
for this target (`Remove-Item`) and write the expanded argument list to it
(`Out-File`).  The association list is keyed by file name, so deletion is a
filter and the write appends the single fresh entry. -/
def record (fs : String → Option (List String)) (c : Cache) (output : String)
    (object_args : List String) : Cache :=
  (c.filter (fun e => e.1 ≠ list_file_name output)) ++
    [(list_file_name output, expand_args fs object_args)]

/-- A sequence of default-branch invocations, each carrying a target output
path and its object arguments, applied in order. -/
def run_records (fs : String → Option (List String)) :
    List (String × List String) → Cache → Cache
  | [], c => c
  | r :: rs, c => run_records fs rs (record fs c r.1 r.2)

/-- Insertion step of the name-sorted directory enumeration. -/
def insert_entry_sorted (p : String × List String) :
    List (String × List String) → List (String × List String)
  | [] => [p]
  | q :: qs => if chars_lt q.1.data p.1.data then q :: insert_entry_sorted p qs
               else p :: q :: qs

/-- The cache directory's entries in the stable name-sorted order in which
`Get-ChildItem -Path $cache_dir -File` yields them. -/
def sort_entries : Cache → List (String × List String)
  | [] => []
  | p :: ps => insert_entry_sorted p (sort_entries ps)

/-- `merge` object list: `Get-ChildItem -Path $cache_dir -File |
ForEach-Object { Get-Content $_.FullName } | Where-Object { $_ }` — all lines
of all list files in name order, with empty lines dropped. -/
def merge_object_files (c : Cache) : List String :=
  ((sort_entries c).flatMap (fun e => e.2)).filter (fun o => o ≠ "")

/-- `merge-phase-2` object list: the same enumeration, then
`$object_files += "$cmake_binary_dir/core-libs/clojure/core.o"`. -/
def merge_phase_2_object_files (c : Cache) : List String :=
  (((sort_entries c).flatMap (fun e => e.2)).filter (fun o => o ≠ "")) ++
    [core_object_path]

/-- `clean`: the cache directory is removed recursively and recreated
empty. -/
def clean_cache (_c : Cache) : Cache := []

/-- One invocation of the script: dispatch on `$args[0]`.  The result is the
new cache state together with the list of archiver subprocess invocations
performed (each as a full argument vector starting with `$ar`).  Deleting a
pre-existing merge output file and the `Write-Host` logging are not part of
the cache/invocation state.  A default-branch call without an output
argument is outside the CLI surface used by the build and is modelled as a
no-op. -/
def run_script (fs : String → Option (List String)) (c : Cache) :
    List String → Cache × List (List String)
  | [] => (c, [])
  | command :: rest =>
    if command = "clean" then (clean_cache c, [])
    else if command = "merge" then
      (c, [[ar, "qc", merge_output_path] ++ merge_object_files c])
    else if command = "merge-phase-2" then
      (c, [[ar, "qc", standalone_output_path] ++ merge_phase_2_object_files c])
    else
      match rest with
      | output :: object_args =>
        (record fs c output object_args, [[ar, command, output] ++ object_args])
      | [] => (c, [])

/-
-------------------------------------------------------------------------
Part 2: toolchain resolver, JIT flag filter, PCH manager, link composer.
-------------------------------------------------------------------------
-/

/-- Modelled from the spec: the full `is_accessible_path` check of
`util/clang.cpp` and `jit/processor.cpp` is only excerpted, not reproduced
whole, in the repository snapshot (the AOT linking fix document quotes the
`/Users/` classification fragment and, separately, the earlier inline
existence probe).  Following spec section 4.2 and the two excerpts: a path
under the per-user home root `"/Users/"` is rejected with no filesystem
probe when the process runs from an application bundle; outside a bundle it
is rejected with no probe unless it lies under the current user's home
(`home = none` models `getenv("HOME")` returning null); any path that
survives this classification is probed and the probe's result honored.  The
probe (`std::filesystem::exists` with an `error_code`) is a parameter, and
the second component counts how many times it was invoked for this
candidate. -/
def is_accessible_path (bundle : Bool) (home : Option String)
    (probe : String → Bool) (path : String) : Bool × Nat :=
  if starts_with_str path "/Users/" then
    if bundle then (false, 0)
    else
      match home with
      | none => (false, 0)
      | some h => if starts_with_str path h then (probe path, 1) else (false, 0)
  else (probe path, 1)

/-- Tokenization performed by `while (std::getline(flags, flag, ' '))` on
the baked-in `JANK_JIT_FLAGS` string: fields between single spaces, with no
final empty field when the string ends in a space, and no field at all for
the empty string. -/
def split_space : List Char → List (List Char)
  | [] => [[]]
  | c :: cs =>
    if c = ' ' then [] :: split_space cs
    else
      match split_space cs with
      | t :: ts => (c :: t) :: ts
      | [] => [[c]]

/-- String-level `getline` split, see `split_space`. -/
def getline_split (s : String) : List String :=
  if s.data = [] then []
  else
    let toks := (split_space s.data).map (fun l => (⟨l⟩ : String))
    if s.data.getLast? = some ' ' then toks.dropLast else toks

/-- The `JANK_JIT_FLAGS` filtering loop of `jit/processor.cpp`: each token
starting with `-I` is kept exactly when the accessibility check `acc`
accepts the path obtained by dropping the `-I`; every other token is kept
unconditionally.  The check is a parameter; the program instantiates it
with the existence probe combined with the `is_accessible_path`
classification. -/
def filter_effective_flags (acc : String → Bool) (raw : String) : List String :=
  (getline_split raw).filter
    (fun flag => if starts_with_str flag "-I" then acc (str_drop flag 2) else true)

/-- The flags appended when loading the precompiled header
(`jit/processor.cpp`): `-include-pch <path>` followed by
`-Xclang -fno-validate-pch`. -/
def load_flags (pch_path : String) : List String :=
  ["-include-pch", pch_path, "-Xclang", "-fno-validate-pch"]

/-- `for(auto const &lib : util::cli::opts.libs)` of `aot/processor.cpp`:
one `-l<lib>` flag per user-requested library name. -/
def user_lib_flags (libs : List String) : List String :=
  libs.map (fun lib => str_cat "-l" lib)

/-- The fixed macOS framework link flags appended by `aot/processor.cpp`:
`-framework <name>` for OpenGL, Cocoa, IOKit and CoreFoundation. -/
def macos_framework_flags : List String :=
  (["OpenGL", "Cocoa", "IOKit", "CoreFoundation"] : List String).flatMap
    (fun fw => ["-framework", fw])

/-- The tail of the AOT link argument vector built by `aot/processor.cpp`:
whatever compiler arguments precede the user-library enumeration
(`base_args`), then one `-l` flag per user library, then — only on the
macOS-like platform family — the fixed framework flags. -/
def compose_link_args (macos_like : Bool) (base_args libs : List String) : List String :=
  base_args ++ (user_lib_flags libs ++ (if macos_like then macos_framework_flags else []))

/-
-------------------------------------------------------------------------
Theorems.
-------------------------------------------------------------------------
-/

/-- Claim C2: on any cache state, the object list passed to archive creation
by `merge-phase-2` equals the object list `merge` would pass, plus exactly
the compiled standard-library core unit appended last; and `merge-phase-2`
writes to a distinct output path from `merge`. -/
theorem merge_phase_2_appends_core (fs : String → Option (List String)) (c : Cache) :
    merge_phase_2_object_files c = merge_object_files c ++ [core_object_path]
  ∧ (run_script fs c ["merge-phase-2"]).2
      = [[ar, "qc", standalone_output_path] ++ (merge_object_files c ++ [core_object_path])]
  ∧ standalone_output_path ≠ merge_output_path :=
  ⟨rfl, rfl, by decide⟩

/-- Claim C3: `clean` followed by `merge` on the resulting empty cache
produces an archive-creation invocation with zero member object files — the
archiver is invoked on the output path alone — and the script reaches that
invocation (its merge branch has no failure path on an empty, existing cache
directory, which `clean` recreates). -/
theorem clean_then_merge_empty (fs fs2 : String → Option (List String)) (c : Cache) :
    merge_object_files ((run_script fs c ["clean"]).1) = []
  ∧ (run_script fs2 ((run_script fs c ["clean"]).1) ["merge"]).2
      = [[ar, "qc", merge_output_path]] :=
  ⟨rfl, rfl⟩

/-- Claim C10: sanitization of target output paths is not injective — the
distinct paths `a/b` and `a_b` share the sanitized key — so recording the
second target overwrites the first target's cache record, and a subsequent
merge includes only the later target's object list. -/
theorem sanitized_key_collision :
    sanitize_output "a/b" = sanitize_output "a_b"
  ∧ ("a/b" : String) ≠ "a_b"
  ∧ record (fun _ => none) (record (fun _ => none) [] "a/b" ["x.o"]) "a_b" ["y.o"]
      = [(list_file_name "a_b", ["y.o"])]
  ∧ merge_object_files
      (record (fun _ => none) (record (fun _ => none) [] "a/b" ["x.o"]) "a_b" ["y.o"])
      = ["y.o"] := by
  decide

/-- Claim C8: for every `pch_path`, the flag sequence returned when loading
the precompiled header contains the consuming flag pair
`-include-pch <pch_path>` and always contains `-fno-validate-pch`, the flag
disabling the toolchain's staleness validation of the artifact. -/
theorem load_flags_disable_validation (pch_path : String) :
    "-include-pch" ∈ load_flags pch_path
  ∧ pch_path ∈ load_flags pch_path
  ∧ "-fno-validate-pch" ∈ load_flags pch_path
  ∧ List.Sublist ["-include-pch", pch_path] (load_flags pch_path) := by
  refine ⟨?_, ?_, ?_, ?_⟩
  · simp [load_flags]
  · simp [load_flags]
  · simp [load_flags]
  · exact List.sublist_append_left ["-include-pch", pch_path] ["-Xclang", "-fno-validate-pch"]

/-- Claim C5: any invocation whose subcommand is none of `clean`, `merge`,
`merge-phase-2` forwards exactly the original argument vector to the
underlying archiver — subcommand, output path and the unexpanded object or
response-file arguments verbatim — independent of the response-file
filesystem and of the cache state. -/
theorem default_forwards_original_args (fs : String → Option (List String)) (c : Cache)
    (command output : String) (object_args : List String)
    (h1 : command ≠ "clean") (h2 : command ≠ "merge") (h3 : command ≠ "merge-phase-2") :
    (run_script fs c (command :: output :: object_args)).2
      = [[ar, command, output] ++ object_args] := by
  have hstep : run_script fs c (command :: output :: object_args)
      = (if command = "clean" then (clean_cache c, [])
         else if command = "merge" then
           (c, [[ar, "qc", merge_output_path] ++ merge_object_files c])
         else if command = "merge-phase-2" then
           (c, [[ar, "qc", standalone_output_path] ++ merge_phase_2_object_files c])
         else (record fs c output object_args, [[ar, command, output] ++ object_args])) := rfl
  rw [hstep, if_neg h1, if_neg h2, if_neg h3]

/-- Witness for C5: an unrecognized subcommand `qc` with a response-file
reference is forwarded verbatim, even though the response file exists and
the cache write expands it. -/
theorem default_forwards_original_args_witness :
    (("qc" : String) ≠ "clean" ∧ ("qc" : String) ≠ "merge"
      ∧ ("qc" : String) ≠ "merge-phase-2")
  ∧ (run_script (fun s => if s = "objs.rsp" then some ["x.o"] else none) []
        ["qc", "libfoo.a", "@objs.rsp"]).2
      = [[ar, "qc", "libfoo.a"] ++ ["@objs.rsp"]] :=
  ⟨⟨by decide, by decide, by decide⟩,
   default_forwards_original_args (fun s => if s = "objs.rsp" then some ["x.o"] else none)
     [] "qc" "libfoo.a" ["@objs.rsp"] (by decide) (by decide) (by decide)⟩

/-- Claim C9: the AOT link argument vector contains the user-library flags
as an in-order subsequence, exactly one `-l` flag per requested library
name (also when the platform is not macOS-like), and on the macOS-like
platform it ends with the fixed OpenGL, Cocoa, IOKit and CoreFoundation
framework flags placed after the user-library flags. -/
theorem aot_links_user_libs (macos_like : Bool) (base_args libs : List String) :
    List.Sublist (user_lib_flags libs) (compose_link_args macos_like base_args libs)
  ∧ (user_lib_flags libs).length = libs.length
  ∧ (∀ lib ∈ libs, str_cat "-l" lib ∈ compose_link_args macos_like base_args libs)
  ∧ compose_link_args true base_args libs
      = (base_args ++ user_lib_flags libs) ++ macos_framework_flags
  ∧ macos_framework_flags
      = ["-framework", "OpenGL", "-framework", "Cocoa",
         "-framework", "IOKit", "-framework", "CoreFoundation"] := by
  refine ⟨?_, ?_, ?_, ?_, rfl⟩
  · exact ((List.sublist_append_left (user_lib_flags libs) _).trans
      (List.sublist_append_right base_args _))
  · simp [user_lib_flags]
  · intro lib hl
    have hm : str_cat "-l" lib ∈ user_lib_flags libs := List.mem_map_of_mem _ hl
    simp only [compose_link_args, List.mem_append]
    exact Or.inr (Or.inl hm)
  · simp [compose_link_args, List.append_assoc]

/-- Witness for C9: with one base argument and two user libraries on the
macOS-like platform, each requested library contributes its `-l` flag. -/
theorem aot_links_user_libs_witness :
    ("glfw" : String) ∈ (["glfw", "ozz"] : List String)
  ∧ str_cat "-l" "glfw" ∈ compose_link_args true ["libjank-standalone.a"] ["glfw", "ozz"] :=
  ⟨by decide,
   (aot_links_user_libs true ["libjank-standalone.a"] ["glfw", "ozz"]).2.2.1 "glfw" (by decide)⟩

/-- Claim C6 (spec-modelled): in bundle mode every candidate under the
user-home root is rejected with zero probes; outside bundle mode a
candidate under the home root is rejected with zero probes when no current
home is known or the candidate is not under the current user's home; and a
candidate under the current user's home is probed exactly once with the
probe's result returned. -/
theorem home_paths_rejected_without_probe (home : Option String)
    (probe : String → Bool) (path h : String) :
    (starts_with_str path "/Users/" = true →
      is_accessible_path true home probe path = (false, 0))
  ∧ (starts_with_str path "/Users/" = true →
      is_accessible_path false none probe path = (false, 0))
  ∧ (starts_with_str path "/Users/" = true → starts_with_str path h = false →
      is_accessible_path false (some h) probe path = (false, 0))
  ∧ (starts_with_str path "/Users/" = true → starts_with_str path h = true →
      is_accessible_path false (some h) probe path = (probe path, 1)) := by
  refine ⟨?_, ?_, ?_, ?_⟩
  · intro h1; simp [is_accessible_path, h1]
  · intro h1; simp [is_accessible_path, h1]
  · intro h1 h2; simp [is_accessible_path, h1, h2]
  · intro h1 h2; simp [is_accessible_path, h1, h2]

/-- Witness for C6: concrete candidates — a bundle-mode home path and a
different user's home path are rejected with zero probes; a current-user
home path yields the probe's result after one probe. -/
theorem home_paths_rejected_without_probe_witness :
    is_accessible_path true (some "/Users/me") (fun _ => true) "/Users/cam/clang" = (false, 0)
  ∧ is_accessible_path false (some "/Users/me") (fun _ => true) "/Users/cam/clang" = (false, 0)
  ∧ is_accessible_path false (some "/Users/me") (fun _ => true) "/Users/me/clang" = (true, 1) :=
  ⟨(home_paths_rejected_without_probe (some "/Users/me") (fun _ => true)
      "/Users/cam/clang" "/Users/me").1 (by decide),
   (home_paths_rejected_without_probe (some "/Users/me") (fun _ => true)
      "/Users/cam/clang" "/Users/me").2.2.1 (by decide) (by decide),
   (home_paths_rejected_without_probe (some "/Users/me") (fun _ => true)
      "/Users/me/clang" "/Users/me").2.2.2 (by decide) (by decide)⟩

/-- Claim C7: the filtered flag list is an in-order subsequence of the
whitespace-split input; every token not starting with `-I` is retained; a
token starting with `-I` is retained exactly when the accessibility check
accepts the path obtained by stripping the `-I`. -/
theorem filter_flags_subsequence (acc : String → Bool) (raw : String) :
    List.Sublist (filter_effective_flags acc raw) (getline_split raw)
  ∧ (∀ f ∈ getline_split raw, starts_with_str f "-I" = false →
      f ∈ filter_effective_flags acc raw)
  ∧ (∀ f ∈ getline_split raw, starts_with_str f "-I" = true →
      (f ∈ filter_effective_flags acc raw ↔ acc (str_drop f 2) = true)) := by
  refine ⟨List.filter_sublist _, ?_, ?_⟩
  · intro f hf hni
    simp [filter_effective_flags, List.mem_filter, hf, hni]
  · intro f hf hi
    simp [filter_effective_flags, List.mem_filter, hf, hi]

/-- Witness for C7: over the raw flag string `-I/ok -O2 -I/bad` with a check
accepting only `/ok`, the non-include flag `-O2` is retained and the
include flag `-I/bad` is retained iff its path passes the check. -/
theorem filter_flags_subsequence_witness :
    ("-O2" : String) ∈ filter_effective_flags (fun p => p == "/ok") "-I/ok -O2 -I/bad"
  ∧ ((("-I/bad" : String) ∈ filter_effective_flags (fun p => p == "/ok") "-I/ok -O2 -I/bad")
      ↔ (fun p => p == "/ok") (str_drop "-I/bad" 2) = true) :=
  ⟨(filter_flags_subsequence (fun p => p == "/ok") "-I/ok -O2 -I/bad").2.1
      "-O2" (by decide) (by decide),
   (filter_flags_subsequence (fun p => p == "/ok") "-I/ok -O2 -I/bad").2.2
      "-I/bad" (by decide) (by decide)⟩

/-- Recording a target whose list file is not yet in the cache appends its
entry and touches nothing else. -/
theorem record_of_fresh_key (fs : String → Option (List String)) (c : Cache)
    (output : String) (object_args : List String)
    (hfresh : ∀ e ∈ c, e.1 ≠ list_file_name output) :
    record fs c output object_args
      = c ++ [(list_file_name output, expand_args fs object_args)] := by
  unfold record
  congr 1
  exact List.filter_eq_self.mpr (fun e he => by simpa using hfresh e he)

/-- A sequence of records whose list-file names are distinct and absent from
the starting cache appends exactly one entry per record, holding the
expanded object list, in invocation order. -/
theorem run_records_eq_append (fs : String → Option (List String))
    (recs : List (String × List String)) :
    ∀ c : Cache,
      ((recs.map (fun r => list_file_name r.1)).Nodup) →
      (∀ r ∈ recs, ∀ e ∈ c, e.1 ≠ list_file_name r.1) →
      run_records fs recs c
        = c ++ recs.map (fun r => (list_file_name r.1, expand_args fs r.2)) := by
  induction recs with
  | nil => intro c _ _; simp [run_records]
  | cons r rs ih =>
    intro c hnd hdis
    have hnd2 : ((rs.map (fun x => list_file_name x.1)).Nodup)
      := (List.nodup_cons.mp (by simpa using hnd)).2
    have hhead : list_file_name r.1 ∉ rs.map (fun x => list_file_name x.1)
      := (List.nodup_cons.mp (by simpa using hnd)).1
    have hr : record fs c r.1 r.2 = c ++ [(list_file_name r.1, expand_args fs r.2)] :=
      record_of_fresh_key fs c r.1 r.2 (fun e he => hdis r (List.mem_cons_self r rs) e he)
    have hdis2 : ∀ x ∈ rs, ∀ e ∈ c ++ [(list_file_name r.1, expand_args fs r.2)],
        e.1 ≠ list_file_name x.1 := by
      intro x hx e he
      rcases List.mem_append.mp he with hec | hee
      · exact hdis x (List.mem_cons_of_mem r hx) e hec
      · have : e = (list_file_name r.1, expand_args fs r.2) := by simpa using hee
        subst this
        intro hcontra
        have hx2 : list_file_name r.1 = list_file_name x.1 := by simpa using hcontra
        exact hhead (by
          rw [hx2]
          exact List.mem_map_of_mem (fun y => list_file_name y.1) hx)
    calc run_records fs (r :: rs) c
        = run_records fs rs (record fs c r.1 r.2) := rfl
      _ = run_records fs rs (c ++ [(list_file_name r.1, expand_args fs r.2)]) := by rw [hr]
      _ = (c ++ [(list_file_name r.1, expand_args fs r.2)])
            ++ rs.map (fun x => (list_file_name x.1, expand_args fs x.2)) := ih _ hnd2 hdis2
      _ = c ++ (r :: rs).map (fun x => (list_file_name x.1, expand_args fs x.2)) := by
            simp [List.append_assoc]

/-- Re-recording the same target replaces its cache entry wholesale: the
cache after two records of one target equals the cache after the second
record alone. -/
theorem record_overwrite (fs : String → Option (List String)) (c : Cache)
    (t : String) (xs ys : List String) :
    record fs (record fs c t xs) t ys = record fs c t ys := by
  unfold record
  rw [List.filter_append]
  simp [List.filter_filter]

/-- Claim C1 (amended): for record invocations whose sanitized keys are
distinct, a following merge passes exactly the flattened concatenation, in
stable sorted order of list-file names, of each target's recorded
(expanded, nonempty) object list; and re-recording a target before merging
contributes only the newly recorded list, never the union of old and new. -/
theorem merge_collects_latest_records (fs : String → Option (List String))
    (recs : List (String × List String)) (c : Cache) (t : String) (xs ys : List String)
    (hnd : ((recs.map (fun r => list_file_name r.1)).Nodup)) :
    merge_object_files (run_records fs recs [])
      = ((sort_entries (recs.map (fun r => (list_file_name r.1, expand_args fs r.2)))).flatMap
          (fun e => e.2)).filter (fun o => o ≠ "")
  ∧ merge_object_files (record fs (record fs c t xs) t ys)
      = merge_object_files (record fs c t ys) := by
  constructor
  · rw [run_records_eq_append fs recs [] hnd (by intro r _ e he; cases he)]
    rw [List.nil_append]
    rfl
  · rw [record_overwrite]

/-- Witness for C1 (amended): recording targets `B` then `A` with distinct
keys and merging yields `A`'s objects before `B`'s in sorted key order; and
re-recording target `T` yields only the new list. -/
theorem merge_collects_latest_records_witness :
    ((([(("B" : String), (["b1.o"] : List String)), ("A", ["a1.o", "a2.o"])]).map
        (fun r => list_file_name r.1)).Nodup)
  ∧ (merge_object_files
        (run_records (fun _ => none) [("B", ["b1.o"]), ("A", ["a1.o", "a2.o"])] [])
      = ((sort_entries ([(("B" : String), (["b1.o"] : List String)),
            ("A", ["a1.o", "a2.o"])].map
            (fun r => (list_file_name r.1, expand_args (fun _ => none) r.2)))).flatMap
          (fun e => e.2)).filter (fun o => o ≠ "")
    ∧ merge_object_files
        (record (fun _ => none) (record (fun _ => none) [] "T" ["old.o"]) "T" ["new.o"])
      = merge_object_files (record (fun _ => none) [] "T" ["new.o"])) :=
  ⟨by decide,
   merge_collects_latest_records (fun _ => none)
     [("B", ["b1.o"]), ("A", ["a1.o", "a2.o"])] [] "T" ["old.o"] ["new.o"] (by decide)⟩

/-- Counterexample to C1 as stated: the target output paths `p/q` and `p_q`
are distinct, yet after recording them in turn the merged object list is
only the later target's list — it omits `a.o`, the most recently recorded
object list of target `p/q`, and differs from the flattened sorted
concatenation of both targets' recorded lists. -/
theorem merge_distinct_paths_counterexample :
    ("p/q" : String) ≠ "p_q"
  ∧ merge_object_files (run_records (fun _ => none) [("p/q", ["a.o"]), ("p_q", ["b.o"])] [])
      = ["b.o"]
  ∧ merge_object_files (run_records (fun _ => none) [("p/q", ["a.o"]), ("p_q", ["b.o"])] [])
      ≠ ((sort_entries ([(("p/q" : String), (["a.o"] : List String)), ("p_q", ["b.o"])].map
            (fun r => (list_file_name r.1, expand_args (fun _ => none) r.2)))).flatMap
          (fun e => e.2)).filter (fun o => o ≠ "")
  ∧ ("a.o" : String) ∉
      merge_object_files (run_records (fun _ => none) [("p/q", ["a.o"]), ("p_q", ["b.o"])] []) := by
  decide

/-- Reading back a target's list file right after recording it returns the
expanded object list that was written. -/
theorem lookup_record (fs : String → Option (List String)) (c : Cache)
    (t : String) (object_args : List String) :
    List.lookup (list_file_name t) (record fs c t object_args)
      = some (expand_args fs object_args) := by
  unfold record
  induction c with
  | nil => simp [List.lookup]
  | cons e es ih =>
    by_cases h : e.1 = list_file_name t
    · simpa [List.filter_cons, h] using ih
    · have hne : (list_file_name t == e.1) = false := beq_eq_false_iff_ne.mpr (Ne.symm h)
      simpa [List.filter_cons, h, List.lookup, hne] using ih

/-- Claim C4: when a record invocation's object arguments include a
response-file reference whose file exists at record time (and response
files hold object paths, not further references), the list written to the
cache is the expanded argument list: it contains every trimmed nonempty
line of the response file, and never the response-file reference itself. -/
theorem record_expands_response_files
    (fs : String → Option (List String)) (c : Cache) (t : String)
    (object_args : List String) (arg : String) (rsp_lines : List String)
    (hmem : arg ∈ object_args) (href : is_ref arg = true)
    (hfs : fs (str_drop arg 1) = some rsp_lines)
    (hwf : ∀ a ∈ object_args, is_ref a = true → ∀ ls, fs (str_drop a 1) = some ls →
           ∀ l ∈ ls, is_ref (trim_str l) = false) :
    List.lookup (list_file_name t) (record fs c t object_args)
      = some (expand_args fs object_args)
  ∧ (∀ l ∈ rsp_lines, trim_str l ≠ "" → trim_str l ∈ expand_args fs object_args)
  ∧ arg ∉ expand_args fs object_args := by
  refine ⟨lookup_record fs c t object_args, ?_, ?_⟩
  · intro l hl htr
    have hseg : trim_str l ∈ expand_one fs arg := by
      simp only [expand_one, href, if_true, hfs, List.mem_filter]
      exact ⟨List.mem_map_of_mem _ hl, by simpa using htr⟩
    exact List.mem_flatMap.mpr ⟨arg, hmem, hseg⟩
  · intro hcontra
    obtain ⟨a, ha, hin⟩ := List.mem_flatMap.mp hcontra
    by_cases hra : is_ref a = true
    · cases hfa : fs (str_drop a 1) with
      | none =>
        have heq : arg = a := by simpa [expand_one, hra, hfa] using hin
        rw [heq, hfa] at hfs
        cases hfs
      | some ls =>
        have hin2 : arg ∈ (ls.map trim_str).filter (fun x => x ≠ "") := by
          simpa [expand_one, hra, hfa] using hin
        obtain ⟨l, hl, hleq⟩ := List.mem_map.mp (List.mem_of_mem_filter hin2)
        have hnr := hwf a ha hra ls hfa l hl
        rw [hleq, href] at hnr
        cases hnr
    · have heq : arg = a := by simpa [expand_one, hra] using hin
      rw [heq] at href
      exact hra href

/-- Witness for C4: recording target `t.a` with arguments `@r` and `b.o`,
where response file `r` holds the lines ` x.o`, an empty line, and `y.o `,
writes a record containing `x.o` and `y.o` but not `@r`. -/
theorem record_expands_response_files_witness :
    (("@r" : String) ∈ (["@r", "b.o"] : List String)
      ∧ is_ref "@r" = true
      ∧ (fun s => if s = "r" then some ([" x.o", "", "y.o "] : List String) else none)
          (str_drop "@r" 1) = some [" x.o", "", "y.o "]
      ∧ (∀ a ∈ (["@r", "b.o"] : List String), is_ref a = true →
          ∀ ls, (fun s => if s = "r" then some ([" x.o", "", "y.o "] : List String) else none)
              (str_drop a 1) = some ls →
          ∀ l ∈ ls, is_ref (trim_str l) = false))
  ∧ (List.lookup (list_file_name "t.a")
        (record (fun s => if s = "r" then some ([" x.o", "", "y.o "] : List String) else none)
          [] "t.a" ["@r", "b.o"])
      = some (expand_args
          (fun s => if s = "r" then some ([" x.o", "", "y.o "] : List String) else none)
          ["@r", "b.o"])
    ∧ (∀ l ∈ ([" x.o", "", "y.o "] : List String), trim_str l ≠ "" →
        trim_str l ∈ expand_args
          (fun s => if s = "r" then some ([" x.o", "", "y.o "] : List String) else none)
          ["@r", "b.o"])
    ∧ ("@r" : String) ∉ expand_args
        (fun s => if s = "r" then some ([" x.o", "", "y.o "] : List String) else none)
        ["@r", "b.o"]) :=
  ⟨⟨by decide, by decide, by decide, by decide⟩,
   record_expands_response_files
     (fun s => if s = "r" then some ([" x.o", "", "y.o "] : List String) else none)
     [] "t.a" ["@r", "b.o"] "@r" [" x.o", "", "y.o "]
     (by decide) (by decide) (by decide) (by decide)⟩
